import Mathlib

/-!
Shallow embedding of `src/scrape.py` (robin's concurrent Tor-aware scraper).

Modelling conventions:
* Python strings are sequences of code points, embedded as `List Char`
  (written `Str`); Python `len`, slicing `s[:n]`, `+` and `in` become
  `List.length`, `List.take`, `++` and `List.isInfixOf`.
* The network is an environment: for each URL a sequence of physical
  request outcomes (`Nat → Attempt`, the i-th request made for that URL),
  where an outcome is either a raised transport exception or an HTTP
  response.  A response body is given as its HTML parse tree (`Html`),
  i.e. the result of `BeautifulSoup(response.text, "html.parser")`.
* The urllib3 `Retry` transport policy configured in `get_tor_session`
  (src lines 76-85) is a fold over the attempt sequence; a plain
  `requests.get` (the clearweb branch, src line 117) performs exactly one
  attempt with no retry adapter.
* The thread pool of `scrape_multiple` is modelled by an explicit
  completion order: `as_completed` yields the submitted tasks in some
  permutation of the input list.
* The progress callback is a caller-supplied function that may raise; it
  is embedded as a predicate `Callback` returning `true` exactly when the
  invocation raises.  A propagating exception makes the coordinator
  return `Except.error ()` (the Python function raises and returns no
  mapping); invocations are journalled as `ProgressEvent`s.
-/

/-- Python strings as sequences of code points. -/
abbrev Str := List Char

/-- One `{link, title}` dict of the input batch (well-formed task). -/
structure URLTask where
  link : Str
  title : Str
deriving DecidableEq, Repr

/-- HTML parse tree: what `BeautifulSoup(body, "html.parser")` produces. -/
inductive Html where
  | text (s : Str) : Html
  | elem (tag : Str) (children : List Html) : Html

mutual
/-- `for script in soup(["script","style"]): script.extract()` —
removes every `script`/`style` element, at any depth (src lines 124-125). -/
def stripScriptStyle : Html → Html
  | .text s => .text s
  | .elem tag cs => .elem tag (stripScriptStyleList cs)
termination_by structural h => h

def stripScriptStyleList : List Html → List Html
  | [] => []
  | c :: cs =>
      match c with
      | .text s => .text s :: stripScriptStyleList cs
      | .elem tag cs2 =>
          if tag = ("script").data ∨ tag = ("style").data then
            stripScriptStyleList cs
          else
            stripScriptStyle (.elem tag cs2) :: stripScriptStyleList cs
termination_by structural l => l
end

mutual
/-- The document-order list of text nodes of a tree. -/
def textLeaves : Html → List Str
  | .text s => [s]
  | .elem _ cs => textLeavesList cs
termination_by structural h => h

def textLeavesList : List Html → List Str
  | [] => []
  | c :: cs => textLeaves c ++ textLeavesList cs
termination_by structural l => l
end

/-- `soup.get_text(separator=' ')`: joins all strings with `' '` (src line 126). -/
def getTextSpaceSep (h : Html) : Str :=
  List.intercalate ([' ']) (textLeaves h)

/-- Python `text.split()`: split on whitespace runs, dropping empty pieces. -/
def pySplit (s : Str) : List Str :=
  (List.splitOnP (fun c => c.isWhitespace) s).filter (fun w => w ≠ [])

/-- `' '.join(text.split())` — whitespace normalization (src line 128). -/
def normalizeWs (s : Str) : Str :=
  List.intercalate ([' ']) (pySplit s)

/-- The full 200-path text pipeline of `scrape_single` (src lines 122-128):
parse (already done by the environment), strip script/style, extract text
with `' '` separator, normalize whitespace. -/
def extractText (body : Html) : Str :=
  normalizeWs (getTextSpaceSep (stripScriptStyle body))

/-- A raised transport-level exception (`requests` exception classes). -/
inductive TransportError where
  | connectTimeout
  | proxyError
  | maxRetryError
  | other (name : Str)
deriving DecidableEq

/-- An HTTP response: status code and parsed body. -/
structure HttpResp where
  status : Nat
  body : Html

/-- Outcome of one physical request: raised exception or response. -/
abbrev Attempt := Except TransportError HttpResp

/-- Outcomes of the successive physical requests made for one URL. -/
abbrev UrlEnv := Nat → Attempt

/-- The network environment: attempt sequence per URL. -/
abbrev NetEnv := Str → UrlEnv

/-- The urllib3 `Retry` configuration built in `get_tor_session`
(src lines 76-82): `Retry(total=3, read=3, connect=3, backoff_factor=0.3,
status_forcelist=[500, 502, 503, 504])`. -/
structure RetryConfig where
  total : Nat
  read : Nat
  connect : Nat
  backoff_factor : ℚ
  status_forcelist : List Nat
deriving DecidableEq, Repr

def torRetry : RetryConfig :=
  { total := 3, read := 3, connect := 3, backoff_factor := 3 / 10
    status_forcelist := [500, 502, 503, 504] }

/-- urllib3 `Retry` semantics for the adapter mounted in `get_tor_session`:
up to `retriesLeft` retries after each request, retrying a raised
connection/read fault or a response whose status is in the forcelist;
exhausting the budget raises `MaxRetryError`.  `i` indexes the physical
attempt in the URL's environment. -/
def retryGet (forcelist : List Nat) (env : UrlEnv) : Nat → Nat → Attempt
  | 0, i =>
      match env i with
      | .error e => .error e
      | .ok r => if r.status ∈ forcelist then .error .maxRetryError else .ok r
  | n + 1, i =>
      match env i with
      | .error _ => retryGet forcelist env n (i + 1)
      | .ok r => if r.status ∈ forcelist then retryGet forcelist env n (i + 1) else .ok r

/-- `session.get(url, ...)` on the session returned by `get_tor_session`
(src lines 70-92, 110-113): retrying transport with `torRetry`. -/
def torSessionGet (env : UrlEnv) : Attempt :=
  retryGet torRetry.status_forcelist env torRetry.total 0

/-- `requests.get(url, ...)` (src line 117): a fresh default session, no
retry adapter — exactly one physical attempt. -/
def directGet (env : UrlEnv) : Attempt :=
  env 0

/-- `needle` is a leading segment of `hay`. -/
def leadsWith (needle hay : Str) : Bool :=
  match needle, hay with
  | [], _ => true
  | _ :: _, [] => false
  | c :: ns, h :: hs => c == h && leadsWith ns hs

/-- Python substring containment `needle in hay`. -/
def containsSub (needle : Str) : Str → Bool
  | [] => needle.isEmpty
  | h :: hs => leadsWith needle (h :: hs) || containsSub needle hs

/-- `use_tor = ".onion" in url` (src line 100). -/
def useTor (url : Str) : Bool :=
  containsSub (".onion").data url

/-- The literal strings of `scrape.py` used in outputs and progress events. -/
def sepTitle : Str := (" - ").data

def phaseChecking : Str := ("checking").data

def phaseSuccess : Str := ("success").data

def phaseFailed : Str := ("failed").data

def phaseError : Str := ("error").data

def labelCheckingTor : Str := ("Checking Tor connection...").data

def labelTorNotRunning : Str := ("Tor NOT running!").data

/-- The transport part of `scrape_single` (src lines 108-117): route via the
Tor session when the link contains `".onion"`, else directly. -/
def rawFetch (net : NetEnv) (t : URLTask) : Attempt :=
  if useTor t.link then torSessionGet (net t.link) else directGet (net t.link)

/-- `scrape_single(url_data)` (src lines 94-144).  Returns `(url, scraped_text)`.
Every raised exception is caught (src lines 134-142) and every non-200
response degrades (src lines 131-133): the function is total, its text is
the title alone on any failure, and on a 200 it is
`f"{title} - {extracted}"` (src line 129).  The random User-Agent header
does not influence the result and is not modelled. -/
def scrape_single (net : NetEnv) (t : URLTask) : Str × Str :=
  match rawFetch net t with
  | .error _ => (t.link, t.title)
  | .ok r =>
      if r.status = 200 then
        (t.link, t.title ++ sepTitle ++ extractText r.body)
      else
        (t.link, t.title)

/-- Environment of `check_tor_connection`'s single probe request: a raised
exception or a response with status and, when `response.json()` succeeds,
the parsed identity-check document. -/
structure TorCheckJson where
  IP : Option Str
  IsTor : Option Bool
deriving DecidableEq, Repr

structure TorCheckResp where
  status : Nat
  json : Option TorCheckJson
deriving DecidableEq, Repr

/-- `check_tor_connection()` (src lines 49-67).  True requires status 200 and
a parseable JSON body (`response.json()` raising is caught and falls
through to `return False`); the `IP`/`IsTor` fields are only logged.
Total: every exception path yields `false`. -/
def check_tor_connection (probe : Except TransportError TorCheckResp) : Bool :=
  match probe with
  | .error _ => false
  | .ok r =>
      if r.status = 200 then
        match r.json with
        | some _ => true
        | none => false
      else false

/-- One invocation of the caller's `progress_callback(label, status,
completed, total)` (src lines 163, 168, 200, 207). -/
structure ProgressEvent where
  label : Str
  phase : Str
  completed : Nat
  total : Nat
deriving DecidableEq, Repr

/-- The caller-supplied callback, embedded as a raise predicate: the result
is `true` exactly when this invocation raises an exception. -/
abbrev Callback := Str → Str → Nat → Nat → Bool

/-- The coordinator's mutable state during `scrape_multiple`
(src lines 170-174): the `results` dict (insertion-ordered association
list with overwrite), the journal of delivered callback invocations, and
the three counters. -/
structure BatchState where
  results : List (Str × Str)
  events : List ProgressEvent
  completed : Nat
  success_count : Nat
  fail_count : Nat
deriving DecidableEq, Repr

/-- `results[k] = v` on a Python dict: overwrite in place if the key is
present, else append. -/
def dictInsert (d : List (Str × Str)) (k v : Str) : List (Str × Str) :=
  if k ∈ d.map Prod.fst then
    d.map (fun p => if p.1 = k then (k, v) else p)
  else
    d ++ [(k, v)]

/-- `max_chars = 2000` (src line 171). -/
def max_chars : Nat := 2000

/-- The marker appended to cut text (src line 187). -/
def truncMarker : Str := ("...(truncated)").data

/-- `if len(content) > max_chars: content = content[:max_chars] + "...(truncated)"`
(src lines 186-187). -/
def truncateContent (s : Str) : Str :=
  if s.length > max_chars then s.take max_chars ++ truncMarker else s

/-- The loop body of `scrape_multiple` for one completed future
(src lines 181-208).  `scrape_single` is total (every exception inside it
is caught), so `future.result()` itself only raises here if a callback
invocation at src line 200 raises: that raise is caught by the generic
`except` (src line 202), which increments `completed` and `fail_count`
again and invokes the callback once more with phase `"error"`
(src line 207) — an exception from that second invocation is uncaught and
propagates (`Except.error`). -/
def processTask (net : NetEnv) (cb : Option Callback) (total : Nat)
    (st : BatchState) (t : URLTask) : Except Unit BatchState :=
  let fetched := scrape_single net t
  let content := truncateContent fetched.2
  let results := dictInsert st.results fetched.1 content
  let completed := st.completed + 1
  let succ : Bool := content.length > t.title.length + 10
  let status : Str := if succ then phaseSuccess else phaseFailed
  let success_count := if succ then st.success_count + 1 else st.success_count
  let fail_count := if succ then st.fail_count else st.fail_count + 1
  match cb with
  | none =>
      .ok { results, events := st.events, completed, success_count, fail_count }
  | some f =>
      let ev1 : ProgressEvent := ⟨t.link, status, completed, total⟩
      if f ev1.label ev1.phase ev1.completed ev1.total then
        let ev2 : ProgressEvent := ⟨t.link, phaseError, completed + 1, total⟩
        if f ev2.label ev2.phase ev2.completed ev2.total then
          .error ()
        else
          .ok { results, events := st.events ++ [ev1, ev2],
                completed := completed + 1, success_count,
                fail_count := fail_count + 1 }
      else
        .ok { results, events := st.events ++ [ev1], completed,
              success_count, fail_count }

/-- `for future in as_completed(future_to_url)` (src lines 181-208): fold the
loop body over the completion order. -/
def scrapeLoop (net : NetEnv) (cb : Option Callback) (total : Nat) :
    BatchState → List URLTask → Except Unit BatchState
  | st, [] => .ok st
  | st, t :: ts =>
      match processTask net cb total st t with
      | .error e => .error e
      | .ok st2 => scrapeLoop net cb total st2 ts

/-- `has_onion = any(".onion" in url_data.get('link','') ...)` (src line 159). -/
def hasOnion (tasks : List URLTask) : Bool :=
  tasks.any (fun t => containsSub (".onion").data t.link)

/-- `scrape_multiple(urls_data, max_workers, progress_callback)`
(src lines 146-211).  `probe` is the environment of the Tor connectivity
check; `order` is the completion order in which `as_completed` yields the
submitted futures (a permutation of `tasks`).  The Python function returns
only `results`; the model returns the whole final coordinator state (or
`Except.error ()` when an uncaught callback exception propagates — the
preamble invocations at src lines 163 and 168 are outside any `try`). -/
def scrape_multiple (net : NetEnv) (probe : Except TransportError TorCheckResp)
    (tasks : List URLTask) (order : List URLTask) (cb : Option Callback) :
    Except Unit BatchState :=
  let total := tasks.length
  let st0 : BatchState := ⟨[], [], 0, 0, 0⟩
  if hasOnion tasks then
    let ev1 : ProgressEvent := ⟨labelCheckingTor, phaseChecking, 0, total⟩
    match cb with
    | none =>
        -- `if progress_callback:` is false; the probe result is only logged.
        scrapeLoop net cb total st0 order
    | some f =>
        if f ev1.label ev1.phase ev1.completed ev1.total then .error ()
        else
          let st1 := { st0 with events := [ev1] }
          if check_tor_connection probe then scrapeLoop net cb total st1 order
          else
            let ev2 : ProgressEvent := ⟨labelTorNotRunning, phaseError, 0, total⟩
            if f ev2.label ev2.phase ev2.completed ev2.total then .error ()
            else scrapeLoop net cb total { st1 with events := [ev1, ev2] } order
  else
    scrapeLoop net cb total st0 order

/-- The fetch of `scrape_single` did not yield a 200 response: a raised
transport fault or a non-200 status — exactly the condition under which
`scrape_single` degrades to the bare title. -/
def fetchFails (net : NetEnv) (t : URLTask) : Bool :=
  match rawFetch net t with
  | .error _ => true
  | .ok r => r.status != 200

/-!  ## Helper lemmas -/

theorem scrape_single_fst (net : NetEnv) (t : URLTask) :
    (scrape_single net t).1 = t.link := by
  unfold scrape_single
  cases rawFetch net t with
  | error e => rfl
  | ok r =>
      by_cases h : r.status = 200 <;> simp [h]

theorem scrape_single_of_failed (net : NetEnv) (t : URLTask)
    (h : fetchFails net t = true) :
    scrape_single net t = (t.link, t.title) := by
  unfold scrape_single
  unfold fetchFails at h
  cases hr : rawFetch net t with
  | error e => rfl
  | ok r =>
      rw [hr] at h
      simp only [ne_eq, bne_iff_ne] at h
      simp [h]

theorem scrape_single_of_200 (net : NetEnv) (t : URLTask) (r : HttpResp)
    (hr : rawFetch net t = .ok r) (h200 : r.status = 200) :
    scrape_single net t = (t.link, t.title ++ sepTitle ++ extractText r.body) := by
  unfold scrape_single
  rw [hr]
  simp [h200]

theorem keys_dictInsert (d : List (Str × Str)) (k v : Str) :
    (dictInsert d k v).map Prod.fst =
      if k ∈ d.map Prod.fst then d.map Prod.fst else d.map Prod.fst ++ [k] := by
  unfold dictInsert
  by_cases hk : k ∈ d.map Prod.fst
  · simp only [hk, if_true, List.map_map]
    refine List.map_congr_left ?_
    intro p _
    by_cases hpk : p.1 = k <;> simp [Function.comp, hpk]
  · simp [hk]

theorem mem_keys_dictInsert (d : List (Str × Str)) (k v k' : Str) :
    k' ∈ (dictInsert d k v).map Prod.fst ↔ k' ∈ d.map Prod.fst ∨ k' = k := by
  rw [keys_dictInsert]
  by_cases hk : k ∈ d.map Prod.fst
  · rw [if_pos hk]
    constructor
    · exact Or.inl
    · rintro (h | rfl)
      · exact h
      · exact hk
  · rw [if_neg hk]
    simp

theorem nodup_keys_dictInsert (d : List (Str × Str)) (k v : Str)
    (h : (d.map Prod.fst).Nodup) :
    ((dictInsert d k v).map Prod.fst).Nodup := by
  rw [keys_dictInsert]
  by_cases hk : k ∈ d.map Prod.fst
  · rw [if_pos hk]
    exact h
  · rw [if_neg hk, List.nodup_append]
    refine ⟨h, List.nodup_singleton k, ?_⟩
    intro a ha hb
    rw [List.mem_singleton] at hb
    subst hb
    exact hk ha

theorem entry_dictInsert (d : List (Str × Str)) (k v : Str) (q : Str × Str)
    (hq : q ∈ dictInsert d k v) :
    (q ∈ d ∧ q.1 ≠ k) ∨ (q.1 = k ∧ q.2 = v) := by
  unfold dictInsert at hq
  by_cases hk : k ∈ d.map Prod.fst
  · simp only [hk, if_true, List.mem_map] at hq
    rcases hq with ⟨p, hp, hpe⟩
    by_cases hpk : p.1 = k
    · right
      rw [if_pos hpk] at hpe
      simp [← hpe]
    · left
      rw [if_neg hpk] at hpe
      exact ⟨hpe ▸ hp, hpe ▸ hpk⟩
  · simp only [hk, if_false, List.mem_append, List.mem_cons, List.not_mem_nil,
      or_false] at hq
    rcases hq with hq | rfl
    · left
      refine ⟨hq, fun hqk => hk ?_⟩
      exact List.mem_map.mpr ⟨q, hq, hqk⟩
    · right
      exact ⟨rfl, rfl⟩

theorem entry_dictInsert_key (d : List (Str × Str)) (k v : Str) (v' : Str)
    (hq : (k, v') ∈ dictInsert d k v) : v' = v := by
  rcases entry_dictInsert d k v (k, v') hq with ⟨_, hne⟩ | ⟨_, he⟩
  · exact absurd rfl hne
  · exact he

theorem processTask_ok_results (net : NetEnv) (cb : Option Callback) (total : Nat)
    (st : BatchState) (t : URLTask) (st2 : BatchState)
    (h : processTask net cb total st t = .ok st2) :
    st2.results = dictInsert st.results t.link (truncateContent (scrape_single net t).2) := by
  cases cb with
  | none =>
      simp only [processTask] at h
      cases h
      simp [scrape_single_fst]
  | some f =>
      simp only [processTask] at h
      repeat' split at h
      all_goals cases h
      all_goals simp [scrape_single_fst]

theorem processTask_ok_events (net : NetEnv) (cb : Option Callback) (total : Nat)
    (st : BatchState) (t : URLTask) (st2 : BatchState)
    (h : processTask net cb total st t = .ok st2) :
    ∃ tail, st2.events = st.events ++ tail := by
  cases cb with
  | none =>
      simp only [processTask] at h
      cases h
      exact ⟨[], by simp⟩
  | some f =>
      simp only [processTask] at h
      repeat' split at h
      all_goals cases h
      all_goals exact ⟨_, rfl⟩

theorem processTask_noraise (net : NetEnv) (f : Callback) (total : Nat)
    (st : BatchState) (t : URLTask)
    (hf : ∀ l p c n, f l p c n = false) :
    ∃ ev sc fc,
      processTask net (some f) total st t =
        .ok ⟨dictInsert st.results t.link (truncateContent (scrape_single net t).2),
             st.events ++ [ev], st.completed + 1, sc, fc⟩ ∧
      ev.label = t.link ∧ ev.completed = st.completed + 1 ∧ ev.total = total ∧
      (ev.phase = phaseSuccess ∨ ev.phase = phaseFailed) := by
  by_cases hsucc :
      (truncateContent (scrape_single net t).2).length > t.title.length + 10
  · refine ⟨⟨t.link, phaseSuccess, st.completed + 1, total⟩,
      st.success_count + 1, st.fail_count, ?_, rfl, rfl, rfl, Or.inl rfl⟩
    simp [processTask, hsucc, hf, scrape_single_fst]
  · refine ⟨⟨t.link, phaseFailed, st.completed + 1, total⟩,
      st.success_count, st.fail_count + 1, ?_, rfl, rfl, rfl, Or.inr rfl⟩
    simp [processTask, hsucc, hf, scrape_single_fst]

theorem processTask_isolated (net : NetEnv) (f : Callback) (total : Nat)
    (st : BatchState) (t : URLTask)
    (herr : ∀ l c n, f l phaseError c n = false) :
    ∃ st2, processTask net (some f) total st t = .ok st2 := by
  simp only [processTask]
  repeat' split
  all_goals first
    | exact ⟨_, rfl⟩
    | simp_all [herr]

theorem scrapeLoop_ok_results (net : NetEnv) (cb : Option Callback) (total : Nat) :
    ∀ (order : List URLTask) (st st2 : BatchState),
      scrapeLoop net cb total st order = .ok st2 →
      ((st.results.map Prod.fst).Nodup → (st2.results.map Prod.fst).Nodup) ∧
      (∀ k, k ∈ st2.results.map Prod.fst ↔
        k ∈ st.results.map Prod.fst ∨ k ∈ order.map URLTask.link) ∧
      (∀ q ∈ st2.results, q ∈ st.results ∨
        ∃ t ∈ order, t.link = q.1 ∧ q.2 = truncateContent (scrape_single net t).2) := by
  intro order
  induction order with
  | nil =>
      intro st st2 h
      simp only [scrapeLoop] at h
      cases h
      exact ⟨id, by simp, fun q hq => Or.inl hq⟩
  | cons t ts ih =>
      intro st st2 h
      simp only [scrapeLoop] at h
      cases hp : processTask net cb total st t with
      | error e => rw [hp] at h; cases h
      | ok st1 =>
          simp only [hp] at h
          obtain ⟨hnd, hmem, hval⟩ := ih st1 st2 h
          have hres := processTask_ok_results net cb total st t st1 hp
          refine ⟨?_, ?_, ?_⟩
          · intro hnd0
            apply hnd
            rw [hres]
            exact nodup_keys_dictInsert _ _ _ hnd0
          · intro k
            rw [hmem k, hres]
            rw [mem_keys_dictInsert]
            simp only [List.map_cons, List.mem_cons]
            tauto
          · intro q hq
            rcases hval q hq with hq1 | ⟨t2, ht2, he1, he2⟩
            · rw [hres] at hq1
              rcases entry_dictInsert _ _ _ q hq1 with ⟨hin, _⟩ | ⟨hk, hv⟩
              · exact Or.inl hin
              · exact Or.inr ⟨t, List.mem_cons_self t ts, hk.symm, hv⟩
            · exact Or.inr ⟨t2, List.mem_cons_of_mem t ht2, he1, he2⟩

theorem scrapeLoop_noraise (net : NetEnv) (f : Callback) (total : Nat)
    (hf : ∀ l p c n, f l p c n = false) :
    ∀ (order : List URLTask) (st : BatchState),
      ∃ st2 evs,
        scrapeLoop net (some f) total st order = .ok st2 ∧
        st2.events = st.events ++ evs ∧
        evs.map ProgressEvent.completed = List.range' (st.completed + 1) order.length ∧
        evs.map ProgressEvent.total = List.replicate order.length total ∧
        (∀ ev ∈ evs, ev.phase = phaseSuccess ∨ ev.phase = phaseFailed) ∧
        st2.completed = st.completed + order.length := by
  intro order
  induction order with
  | nil =>
      intro st
      exact ⟨st, [], rfl, by simp, by simp, by simp, by simp, by simp⟩
  | cons t ts ih =>
      intro st
      obtain ⟨ev, sc, fc, hpt, hlab, hcev, htev, hph⟩ := processTask_noraise net f total st t hf
      obtain ⟨st2, evs, hloop, hev, hmc, hmt, hphs, hcomp⟩ :=
        ih ⟨dictInsert st.results t.link (truncateContent (scrape_single net t).2),
            st.events ++ [ev], st.completed + 1, sc, fc⟩
      dsimp only at hev hmc hcomp
      refine ⟨st2, ev :: evs, ?_, ?_, ?_, ?_, ?_, ?_⟩
      · simp only [scrapeLoop, hpt]
        exact hloop
      · rw [hev]
        simp
      · simp [List.range'_succ, hcev, hmc]
      · simp [List.replicate_succ, htev, hmt]
      · intro e he
        rcases List.mem_cons.mp he with rfl | he2
        · exact hph
        · exact hphs e he2
      · simp only [hcomp, List.length_cons]
        omega

theorem scrapeLoop_isolated (net : NetEnv) (f : Callback) (total : Nat)
    (herr : ∀ l c n, f l phaseError c n = false) :
    ∀ (order : List URLTask) (st : BatchState),
      ∃ st2, scrapeLoop net (some f) total st order = .ok st2 := by
  intro order
  induction order with
  | nil => intro st; exact ⟨st, rfl⟩
  | cons t ts ih =>
      intro st
      obtain ⟨st1, hpt⟩ := processTask_isolated net f total st t herr
      obtain ⟨st2, hloop⟩ := ih st1
      refine ⟨st2, ?_⟩
      simp only [scrapeLoop, hpt]
      exact hloop

theorem scrape_multiple_ok_elim (net : NetEnv) (probe : Except TransportError TorCheckResp)
    (tasks order : List URLTask) (cb : Option Callback) (st2 : BatchState)
    (h : scrape_multiple net probe tasks order cb = .ok st2) :
    ∃ st0 : BatchState, st0.results = [] ∧ st0.completed = 0 ∧
      (∀ ev ∈ st0.events, ev.completed = 0) ∧
      scrapeLoop net cb tasks.length st0 order = .ok st2 := by
  by_cases honion : hasOnion tasks = true
  · cases cb with
    | none =>
        simp only [scrape_multiple, honion, if_true] at h
        exact ⟨⟨[], [], 0, 0, 0⟩, rfl, rfl, by simp, h⟩
    | some f =>
        simp only [scrape_multiple, honion, if_true] at h
        by_cases h1 : f labelCheckingTor phaseChecking 0 tasks.length = true
        · rw [if_pos h1] at h
          cases h
        · rw [if_neg h1] at h
          by_cases h2 : check_tor_connection probe = true
          · rw [if_pos h2] at h
            exact ⟨⟨[], [⟨labelCheckingTor, phaseChecking, 0, tasks.length⟩], 0, 0, 0⟩,
              rfl, rfl, by simp, h⟩
          · rw [if_neg h2] at h
            by_cases h3 : f labelTorNotRunning phaseError 0 tasks.length = true
            · rw [if_pos h3] at h
              cases h
            · rw [if_neg h3] at h
              exact ⟨⟨[], [⟨labelCheckingTor, phaseChecking, 0, tasks.length⟩,
                ⟨labelTorNotRunning, phaseError, 0, tasks.length⟩], 0, 0, 0⟩,
                rfl, rfl, by simp, h⟩
  · simp only [scrape_multiple, honion, if_false] at h
    exact ⟨⟨[], [], 0, 0, 0⟩, rfl, rfl, by simp, h⟩

theorem truncateContent_length (s : Str) :
    (truncateContent s).length ≤ max_chars + truncMarker.length := by
  unfold truncateContent
  split
  · simp only [List.length_append, List.length_take]
    omega
  · next hle =>
      simp only [gt_iff_lt, not_lt] at hle
      omega

theorem truncateContent_of_le (s : Str) (h : s.length ≤ max_chars) :
    truncateContent s = s := by
  unfold truncateContent
  rw [if_neg]
  omega

theorem truncateContent_of_gt (s : Str) (h : s.length > max_chars) :
    truncateContent s = s.take max_chars ++ truncMarker := by
  unfold truncateContent
  rw [if_pos h]

theorem scrape_multiple_noraise (net : NetEnv) (probe : Except TransportError TorCheckResp)
    (tasks order : List URLTask) (f : Callback)
    (hf : ∀ l p c n, f l p c n = false) :
    ∃ st2 pre evs,
      scrape_multiple net probe tasks order (some f) = .ok st2 ∧
      st2.events = pre ++ evs ∧
      (∀ ev ∈ pre, ev.completed = 0) ∧
      evs.map ProgressEvent.completed = List.range' 1 order.length ∧
      evs.map ProgressEvent.total = List.replicate order.length tasks.length ∧
      (∀ ev ∈ evs, ev.phase = phaseSuccess ∨ ev.phase = phaseFailed) ∧
      st2.completed = order.length := by
  by_cases honion : hasOnion tasks = true
  · simp only [scrape_multiple, honion, if_true]
    simp only [hf, Bool.false_eq_true, if_false]
    by_cases h2 : check_tor_connection probe = true
    · rw [if_pos h2]
      obtain ⟨st2, evs, hloop, hev, hmc, hmt, hph, hcomp⟩ :=
        scrapeLoop_noraise net f tasks.length hf order
          ⟨[], [⟨labelCheckingTor, phaseChecking, 0, tasks.length⟩], 0, 0, 0⟩
      dsimp only at hev hmc hcomp
      simp only [Nat.zero_add] at hmc hcomp
      exact ⟨st2, [⟨labelCheckingTor, phaseChecking, 0, tasks.length⟩], evs,
        hloop, hev, by simp, hmc, hmt, hph, hcomp⟩
    · rw [if_neg h2]
      obtain ⟨st2, evs, hloop, hev, hmc, hmt, hph, hcomp⟩ :=
        scrapeLoop_noraise net f tasks.length hf order
          ⟨[], [⟨labelCheckingTor, phaseChecking, 0, tasks.length⟩,
            ⟨labelTorNotRunning, phaseError, 0, tasks.length⟩], 0, 0, 0⟩
      dsimp only at hev hmc hcomp
      simp only [Nat.zero_add] at hmc hcomp
      exact ⟨st2, [⟨labelCheckingTor, phaseChecking, 0, tasks.length⟩,
        ⟨labelTorNotRunning, phaseError, 0, tasks.length⟩], evs,
        hloop, hev, by simp, hmc, hmt, hph, hcomp⟩
  · simp only [scrape_multiple, honion, if_false]
    obtain ⟨st2, evs, hloop, hev, hmc, hmt, hph, hcomp⟩ :=
      scrapeLoop_noraise net f tasks.length hf order ⟨[], [], 0, 0, 0⟩
    dsimp only at hev hmc hcomp
    simp only [Nat.zero_add] at hmc hcomp
    exact ⟨st2, [], evs, hloop, by simpa using hev, by simp, hmc, hmt, hph, hcomp⟩

theorem scrape_multiple_isolated (net : NetEnv) (probe : Except TransportError TorCheckResp)
    (tasks order : List URLTask) (f : Callback)
    (herr : ∀ l c n, f l phaseError c n = false)
    (hchk : ∀ l c n, f l phaseChecking c n = false) :
    ∃ st2, scrape_multiple net probe tasks order (some f) = .ok st2 := by
  by_cases honion : hasOnion tasks = true
  · simp only [scrape_multiple, honion, if_true]
    simp only [hchk, Bool.false_eq_true, if_false]
    by_cases h2 : check_tor_connection probe = true
    · rw [if_pos h2]
      exact scrapeLoop_isolated net f tasks.length herr order _
    · rw [if_neg h2]
      simp only [herr, Bool.false_eq_true, if_false]
      exact scrapeLoop_isolated net f tasks.length herr order _
  · simp only [scrape_multiple, honion, if_false]
    exact scrapeLoop_isolated net f tasks.length herr order _

theorem retryGet_retry (fl : List Nat) (env : UrlEnv) (n i : Nat) (r : HttpResp)
    (he : env i = .ok r) (hin : r.status ∈ fl) :
    retryGet fl env (n + 1) i = retryGet fl env n (i + 1) := by
  simp [retryGet, he, hin]

theorem retryGet_ok (fl : List Nat) (env : UrlEnv) (n i : Nat) (r : HttpResp)
    (he : env i = .ok r) (hnin : r.status ∉ fl) :
    retryGet fl env n i = .ok r := by
  cases n <;> simp [retryGet, he, hnin]

/-- C7: the connectivity probe `check_tor_connection` never raises (it is a
total function of the probe outcome), and it returns `true` exactly when the
identity-check endpoint responded HTTP 200 with a body that
`response.json()` can parse — the parsed `IsTor` flag is only logged, never
checked, so "confirming anonymized egress" is not required for `true`;
every exception and every non-200 response yields `false`. -/
theorem C7_probe_truth_condition :
    ∀ probe : Except TransportError TorCheckResp,
      check_tor_connection probe = true ↔
        ∃ r, probe = .ok r ∧ r.status = 200 ∧ r.json.isSome := by
  intro probe
  cases probe with
  | error e => simp [check_tor_connection]
  | ok r =>
      by_cases hs : r.status = 200
      · cases hj : r.json with
        | none => simp [check_tor_connection, hs, hj]
        | some j => simp [check_tor_connection, hs, hj]
      · simp [check_tor_connection, hs]

/-- C7 counterexample: a 200 response whose parseable body explicitly
reports `IsTor = false` — i.e. it does NOT confirm anonymized egress —
still makes `check_tor_connection` return `true`, refuting "returns true
only when ... a parseable response confirming anonymized egress". -/
theorem C7_counterexample :
    check_tor_connection
        (.ok ⟨200, some ⟨some ("1.2.3.4").data, some false⟩⟩) = true ∧
    (⟨some ("1.2.3.4").data, some false⟩ : TorCheckJson).IsTor = some false ∧
    (some false : Option Bool) ≠ some true :=
  ⟨rfl, rfl, by decide⟩

/-- C3: for every fetch answered with HTTP 200, the outcome text of
`scrape_single` is the HTML body with script/style elements removed, the
visible text extracted with a space separator, whitespace runs collapsed to
single spaces, and the task title prefixed with the separator `" - "`. -/
theorem C3_success_extraction (net : NetEnv) (t : URLTask) (r : HttpResp)
    (hr : rawFetch net t = .ok r) (h200 : r.status = 200) :
    (scrape_single net t).2 =
      t.title ++ sepTitle ++
        normalizeWs (getTextSpaceSep (stripScriptStyle r.body)) := by
  rw [scrape_single_of_200 net t r hr h200]
  rfl

/-- C3 witness (Scenario A): title `"Example"` with body
`<html><body><script>x</script>Hello World</body></html>` yields exactly
`"Example - Hello World"`. -/
theorem C3_witness :
    (scrape_single
        (fun _ _ => .ok ⟨200, .elem ("html").data
          [.elem ("body").data
            [.elem ("script").data [.text ("x").data],
             .text ("Hello World").data]]⟩)
        ⟨("http://example.test/ok").data, ("Example").data⟩).2 =
      ("Example - Hello World").data := by
  have h := C3_success_extraction
      (fun _ _ => .ok ⟨200, .elem ("html").data
        [.elem ("body").data
          [.elem ("script").data [.text ("x").data],
           .text ("Hello World").data]]⟩)
      ⟨("http://example.test/ok").data, ("Example").data⟩
      ⟨200, .elem ("html").data
        [.elem ("body").data
          [.elem ("script").data [.text ("x").data],
           .text ("Hello World").data]]⟩ rfl rfl
  rw [h]
  decide

/-- C4 counterexample: in direct (clearweb) routing mode `scrape_single`
uses a bare `requests.get` with no retry adapter, so a server answering
503, 503, 503, then 200 is NOT retried: the outcome is the bare title, not
a Success with extracted text — refuting "in both routing modes ... a
server that returns 503 three times and then 200 yields a Success outcome". -/
theorem C4_counterexample :
    (scrape_single
        (fun _ i => if i < 3 then .ok ⟨503, .text []⟩
                    else .ok ⟨200, .text ("Hello").data⟩)
        ⟨("http://clearweb.test/x").data, ("T4").data⟩).2 = ("T4").data ∧
    ("T4").data ≠ ("T4 - Hello").data :=
  ⟨rfl, by decide⟩

/-- C4 (amended): only the anonymized (Tor) session built by
`get_tor_session` is configured with the urllib3 Retry policy — statuses
500/502/503/504, 3 retries, backoff factor 0.3, applied to connect- and
read-level failures — while direct mode performs a single attempt with no
retry; hence an anonymized-mode fetch whose server returns a forcelist
status three times and then 200 succeeds with extracted text. -/
theorem C4_retry_anonymized_only (net : NetEnv) (t : URLTask)
    (r0 r1 r2 r3 : HttpResp)
    (honion : useTor t.link = true)
    (h0 : net t.link 0 = .ok r0) (hs0 : r0.status ∈ torRetry.status_forcelist)
    (h1 : net t.link 1 = .ok r1) (hs1 : r1.status ∈ torRetry.status_forcelist)
    (h2 : net t.link 2 = .ok r2) (hs2 : r2.status ∈ torRetry.status_forcelist)
    (h3 : net t.link 3 = .ok r3) (hs3 : r3.status = 200) :
    torRetry.total = 3 ∧ torRetry.backoff_factor = 3 / 10 ∧
    torRetry.status_forcelist = [500, 502, 503, 504] ∧
    (∀ env : UrlEnv, directGet env = env 0) ∧
    (scrape_single net t).2 = t.title ++ sepTitle ++ extractText r3.body := by
  refine ⟨rfl, rfl, rfl, fun _ => rfl, ?_⟩
  have hraw : rawFetch net t = .ok r3 := by
    unfold rawFetch
    rw [if_pos honion]
    unfold torSessionGet
    calc retryGet torRetry.status_forcelist (net t.link) torRetry.total 0
        = retryGet torRetry.status_forcelist (net t.link) 2 1 :=
          retryGet_retry _ _ 2 0 r0 h0 hs0
      _ = retryGet torRetry.status_forcelist (net t.link) 1 2 :=
          retryGet_retry _ _ 1 1 r1 h1 hs1
      _ = retryGet torRetry.status_forcelist (net t.link) 0 3 :=
          retryGet_retry _ _ 0 2 r2 h2 hs2
      _ = .ok r3 := retryGet_ok _ _ 0 3 r3 h3 (by rw [hs3]; decide)
  rw [scrape_single_of_200 net t r3 hraw hs3]

/-- C4 witness: an `.onion` task against a server answering 503 three times
then 200 with body text `"Hello"` yields `"T4b - Hello"`. -/
theorem C4_witness :
    (scrape_single
        (fun _ i => if i < 3 then .ok ⟨503, .text []⟩
                    else .ok ⟨200, .text ("Hello").data⟩)
        ⟨("http://abc.onion/x").data, ("T4b").data⟩).2 = ("T4b - Hello").data := by
  have h := C4_retry_anonymized_only
      (fun _ i => if i < 3 then .ok ⟨503, .text []⟩
                  else .ok ⟨200, .text ("Hello").data⟩)
      ⟨("http://abc.onion/x").data, ("T4b").data⟩
      ⟨503, .text []⟩ ⟨503, .text []⟩ ⟨503, .text []⟩ ⟨200, .text ("Hello").data⟩
      (by decide) rfl (by decide) rfl (by decide) rfl (by decide) rfl rfl
  rw [h.2.2.2.2]
  decide


theorem truncMarker_length : truncMarker.length = 14 := rfl

theorem take_replicate_of_le (n m : Nat) (a : Char) (h : n ≤ m) :
    (List.replicate m a).take n = List.replicate n a := by
  have hm : m = n + (m - n) := by omega
  rw [hm, List.replicate_add]
  exact List.take_left' (List.length_replicate n a)

theorem scrape_multiple_single_failed (net : NetEnv)
    (probe : Except TransportError TorCheckResp) (t : URLTask)
    (hno : hasOnion [t] = false)
    (hfail : fetchFails net t = true) :
    scrape_multiple net probe [t] [t] none =
      .ok ⟨[(t.link, truncateContent t.title)], [], 1,
           (if (truncateContent t.title).length > t.title.length + 10 then 1 else 0),
           (if (truncateContent t.title).length > t.title.length + 10 then 0 else 1)⟩ := by
  have h1 : scrape_single net t = (t.link, t.title) := scrape_single_of_failed net t hfail
  simp only [scrape_multiple, hno, Bool.false_eq_true, if_false, scrapeLoop, processTask, h1,
    dictInsert, List.map_nil, List.not_mem_nil, List.nil_append, decide_eq_true_eq]

/-- C1 counterexample: the clause "the entry for a failed task falls back to
its title" fails verbatim for titles longer than 2000 characters — the
coordinator truncates the stored value (src lines 186-187) after the
fallback, so the entry for the failed task is the first 2000 characters of
the title plus the truncation marker, not the title.  The count clause
itself holds: the run returns exactly one entry for the one distinct link. -/
theorem C1_counterexample :
    scrape_multiple (fun _ _ => .error .proxyError) (.error .proxyError)
        [⟨("http://a.test/").data, List.replicate 2100 'b'⟩]
        [⟨("http://a.test/").data, List.replicate 2100 'b'⟩] none =
      .ok ⟨[(("http://a.test/").data, List.replicate 2000 'b' ++ truncMarker)],
           [], 1, 0, 1⟩ ∧
    List.replicate 2000 'b' ++ truncMarker ≠ List.replicate 2100 'b' := by
  have htr : truncateContent (List.replicate 2100 'b') =
      List.replicate 2000 'b' ++ truncMarker := by
    rw [truncateContent_of_gt _ (by simp only [List.length_replicate, max_chars]; omega)]
    rw [show max_chars = 2000 from rfl]
    rw [take_replicate_of_le 2000 2100 'b' (by omega)]
  constructor
  · have hrun := scrape_multiple_single_failed (fun _ _ => .error .proxyError)
        (.error .proxyError) ⟨("http://a.test/").data, List.replicate 2100 'b'⟩
        (by decide) (by decide)
    rw [hrun, htr]
    have hcond : ¬((List.replicate 2000 'b' ++ truncMarker).length >
        (⟨("http://a.test/").data, List.replicate 2100 'b'⟩ : URLTask).title.length + 10) := by
      simp only [List.length_append, List.length_replicate, truncMarker_length]
      omega
    rw [if_neg hcond, if_neg hcond]
  · intro h
    have hl := congrArg List.length h
    simp only [List.length_append, List.length_replicate, truncMarker_length] at hl
    omega

/-- C1 (amended): for every batch of well-formed tasks and every returning
run of `scrape_multiple`, the mapping contains exactly one entry per
distinct link — keys are duplicate-free, a link is a key iff it is a task
link, and the number of entries equals the number of distinct links — even
when every fetch fails; each entry holds the truncation of a completed
fetch outcome for its link, which on a failed fetch is the possibly
truncated title: the title itself when it has at most 2000 characters. -/
theorem C1_one_entry_per_distinct_link (net : NetEnv)
    (probe : Except TransportError TorCheckResp)
    (tasks order : List URLTask) (cb : Option Callback) (st : BatchState)
    (hperm : order.Perm tasks)
    (hok : scrape_multiple net probe tasks order cb = .ok st) :
    (st.results.map Prod.fst).Nodup ∧
    (∀ k, k ∈ st.results.map Prod.fst ↔ k ∈ tasks.map URLTask.link) ∧
    st.results.length = (tasks.map URLTask.link).dedup.length ∧
    (∀ q ∈ st.results, ∃ t ∈ tasks, t.link = q.1 ∧
      q.2 = truncateContent (scrape_single net t).2 ∧
      (fetchFails net t = true → q.2 = truncateContent t.title)) := by
  obtain ⟨st0, hres0, hcomp0, hev0, hloop⟩ :=
    scrape_multiple_ok_elim net probe tasks order cb st hok
  obtain ⟨hnd, hmem, hval⟩ :=
    scrapeLoop_ok_results net cb tasks.length order st0 st hloop
  have hnodup : (st.results.map Prod.fst).Nodup := by
    apply hnd
    rw [hres0]
    simp
  have hmem2 : ∀ k, k ∈ st.results.map Prod.fst ↔ k ∈ tasks.map URLTask.link := by
    intro k
    rw [hmem k, hres0]
    simp only [List.map_nil, List.not_mem_nil, false_or]
    exact (hperm.map URLTask.link).mem_iff
  refine ⟨hnodup, hmem2, ?_, ?_⟩
  · have hperm2 : (st.results.map Prod.fst).Perm ((tasks.map URLTask.link).dedup) := by
      rw [List.perm_ext_iff_of_nodup hnodup (List.nodup_dedup _)]
      intro a
      rw [hmem2 a, List.mem_dedup]
    have hlen := hperm2.length_eq
    rw [List.length_map] at hlen
    exact hlen
  · intro q hq
    rcases hval q hq with hq0 | ⟨t, htord, hl, hv⟩
    · rw [hres0] at hq0
      exact absurd hq0 (List.not_mem_nil q)
    · refine ⟨t, hperm.mem_iff.mp htord, hl, hv, ?_⟩
      intro hfail
      rw [hv, scrape_single_of_failed net t hfail]

/-- C1 witness: a three-task batch with a duplicated link and every fetch
raising yields a returning run whose mapping has exactly 2 entries — the
number of distinct links. -/
theorem C1_witness :
    ∃ st : BatchState,
      scrape_multiple (fun _ _ => .error .proxyError) (.error .proxyError)
          [⟨("u1").data, ("Alpha").data⟩, ⟨("u1").data, ("Beta").data⟩,
           ⟨("u2").data, ("Gamma").data⟩]
          [⟨("u1").data, ("Alpha").data⟩, ⟨("u1").data, ("Beta").data⟩,
           ⟨("u2").data, ("Gamma").data⟩] none = .ok st ∧
      st.results.length = 2 := by
  refine ⟨⟨[(("u1").data, ("Beta").data), (("u2").data, ("Gamma").data)],
    [], 3, 0, 3⟩, rfl, ?_⟩
  have h := C1_one_entry_per_distinct_link
      (fun _ _ => .error .proxyError) (.error .proxyError)
      [⟨("u1").data, ("Alpha").data⟩, ⟨("u1").data, ("Beta").data⟩,
       ⟨("u2").data, ("Gamma").data⟩]
      [⟨("u1").data, ("Alpha").data⟩, ⟨("u1").data, ("Beta").data⟩,
       ⟨("u2").data, ("Gamma").data⟩] none
      ⟨[(("u1").data, ("Beta").data), (("u2").data, ("Gamma").data)], [], 3, 0, 3⟩
      (List.Perm.refl _) rfl
  exact h.2.2.1.trans (by decide)

/-- C2 counterexample: the clause "whenever a fetch fails, the batch result
entry for that URL equals the task's title exactly" fails for a title of
2001 characters — `scrape_single` does return the bare title, but the
coordinator truncates it before storing (src lines 186-188), so the entry
is the first 2000 characters plus the truncation marker, not the title. -/
theorem C2_counterexample :
    fetchFails (fun _ _ => .error .connectTimeout)
      ⟨("http://b.test/").data, List.replicate 2001 'c'⟩ = true ∧
    scrape_multiple (fun _ _ => .error .connectTimeout) (.error .proxyError)
        [⟨("http://b.test/").data, List.replicate 2001 'c'⟩]
        [⟨("http://b.test/").data, List.replicate 2001 'c'⟩] none =
      .ok ⟨[(("http://b.test/").data, List.replicate 2000 'c' ++ truncMarker)],
           [], 1, 1, 0⟩ ∧
    List.replicate 2000 'c' ++ truncMarker ≠ List.replicate 2001 'c' := by
  have htr : truncateContent (List.replicate 2001 'c') =
      List.replicate 2000 'c' ++ truncMarker := by
    rw [truncateContent_of_gt _ (by simp only [List.length_replicate, max_chars]; omega)]
    rw [show max_chars = 2000 from rfl]
    rw [take_replicate_of_le 2000 2001 'c' (by omega)]
  refine ⟨by decide, ?_, ?_⟩
  · have hrun := scrape_multiple_single_failed (fun _ _ => .error .connectTimeout)
        (.error .proxyError) ⟨("http://b.test/").data, List.replicate 2001 'c'⟩
        (by decide) (by decide)
    rw [hrun, htr]
    have hcond : (List.replicate 2000 'c' ++ truncMarker).length >
        (⟨("http://b.test/").data, List.replicate 2001 'c'⟩ : URLTask).title.length + 10 := by
      simp only [List.length_append, List.length_replicate, truncMarker_length]
      omega
    rw [if_pos hcond, if_pos hcond]
  · intro h
    have hl := congrArg List.length h
    simp only [List.length_append, List.length_replicate, truncMarker_length] at hl
    omega

/-- C2 (amended): `scrape_single` never raises — it is a total function that
on every failed fetch (raised transport exception of any kind, or non-200
response) returns the bare title as outcome text; consequently, when every
task carrying a given link fails and shares the same title of at most 2000
characters, the batch result entry for that link is the title exactly (for
longer titles the stored entry is the truncated title plus marker). -/
theorem C2_failure_fallback (net : NetEnv)
    (probe : Except TransportError TorCheckResp)
    (tasks order : List URLTask) (cb : Option Callback) (st : BatchState)
    (t : URLTask)
    (hperm : order.Perm tasks)
    (hok : scrape_multiple net probe tasks order cb = .ok st)
    (ht : t ∈ tasks)
    (huniq : ∀ t2 ∈ tasks, t2.link = t.link → fetchFails net t2 = true ∧ t2.title = t.title)
    (hlen : t.title.length ≤ max_chars) :
    (∀ (net2 : NetEnv) (t2 : URLTask), fetchFails net2 t2 = true →
      scrape_single net2 t2 = (t2.link, t2.title)) ∧
    (t.link, t.title) ∈ st.results ∧
    (∀ v, (t.link, v) ∈ st.results → v = t.title) := by
  obtain ⟨st0, hres0, hcomp0, hev0, hloop⟩ :=
    scrape_multiple_ok_elim net probe tasks order cb st hok
  obtain ⟨hnd, hmem, hval⟩ :=
    scrapeLoop_ok_results net cb tasks.length order st0 st hloop
  have hval2 : ∀ v, (t.link, v) ∈ st.results → v = t.title := by
    intro v hv
    rcases hval (t.link, v) hv with h0 | ⟨t2, ht2, hl2, hv2⟩
    · rw [hres0] at h0
      exact absurd h0 (List.not_mem_nil _)
    · obtain ⟨hfail2, htitle2⟩ := huniq t2 (hperm.mem_iff.mp ht2) hl2
      calc v = truncateContent (scrape_single net t2).2 := hv2
        _ = truncateContent t2.title := by
              rw [scrape_single_of_failed net t2 hfail2]
        _ = t2.title := truncateContent_of_le _ (by rw [htitle2]; exact hlen)
        _ = t.title := htitle2
  have hk : t.link ∈ st.results.map Prod.fst := by
    rw [hmem]
    right
    exact (hperm.map URLTask.link).mem_iff.mpr (List.mem_map_of_mem URLTask.link ht)
  obtain ⟨q, hq, hq1⟩ := List.mem_map.mp hk
  have hqt : (t.link, q.2) ∈ st.results := by
    rw [← hq1]
    simpa using hq
  have hq2 : q.2 = t.title := hval2 q.2 hqt
  refine ⟨fun net2 t2 h2 => scrape_single_of_failed net2 t2 h2, ?_, hval2⟩
  rw [← hq2]
  exact hqt

/-- C2 witness: a single failing clearweb task with the 1-character title
`"T"` produces a batch entry equal to the title exactly. -/
theorem C2_witness :
    fetchFails (fun _ _ => .error .connectTimeout)
      ⟨("http://w.test/").data, ("T").data⟩ = true ∧
    ((("http://w.test/").data, ("T").data) ∈
      (⟨[(("http://w.test/").data, ("T").data)], [], 1, 0, 1⟩ : BatchState).results) := by
  refine ⟨by decide, ?_⟩
  have h := C2_failure_fallback (fun _ _ => .error .connectTimeout) (.error .proxyError)
      [⟨("http://w.test/").data, ("T").data⟩]
      [⟨("http://w.test/").data, ("T").data⟩] none
      ⟨[(("http://w.test/").data, ("T").data)], [], 1, 0, 1⟩
      ⟨("http://w.test/").data, ("T").data⟩
      (List.Perm.refl _) rfl (by simp)
      (by
        intro t2 ht2 hl
        rcases List.mem_singleton.mp ht2 with rfl
        exact ⟨by decide, rfl⟩)
      (by decide)
  exact h.2.1

/-- C6: for every entry of the batch result of a returning run, the stored
text has length at most 2000 plus the length of the truncation marker, and
whenever the pre-truncation text of the completed fetch exceeded 2000
characters the stored value is exactly its first 2000 characters followed
by the marker. -/
theorem C6_truncation_law (net : NetEnv)
    (probe : Except TransportError TorCheckResp)
    (tasks order : List URLTask) (cb : Option Callback) (st : BatchState)
    (hperm : order.Perm tasks)
    (hok : scrape_multiple net probe tasks order cb = .ok st) :
    ∀ q ∈ st.results,
      q.2.length ≤ max_chars + truncMarker.length ∧
      ∃ t ∈ tasks, t.link = q.1 ∧
        q.2 = truncateContent (scrape_single net t).2 ∧
        ((scrape_single net t).2.length > max_chars →
          q.2 = (scrape_single net t).2.take max_chars ++ truncMarker) := by
  intro q hq
  obtain ⟨st0, hres0, hcomp0, hev0, hloop⟩ :=
    scrape_multiple_ok_elim net probe tasks order cb st hok
  obtain ⟨hnd, hmem, hval⟩ :=
    scrapeLoop_ok_results net cb tasks.length order st0 st hloop
  rcases hval q hq with h0 | ⟨t, htord, hl, hv⟩
  · rw [hres0] at h0
    exact absurd h0 (List.not_mem_nil _)
  · refine ⟨?_, t, hperm.mem_iff.mp htord, hl, hv, ?_⟩
    · rw [hv]
      exact truncateContent_length _
    · intro hgt
      rw [hv, truncateContent_of_gt _ hgt]

/-- C6 witness (Scenario E): a pre-truncation text of exactly 2005
characters is stored as its first 2000 characters plus the marker, within
the length bound. -/
theorem C6_witness :
    ∃ st : BatchState,
      scrape_multiple (fun _ _ => .error .proxyError) (.error .proxyError)
          [⟨("http://e.test/").data, List.replicate 2005 'e'⟩]
          [⟨("http://e.test/").data, List.replicate 2005 'e'⟩] none = .ok st ∧
      ∀ q ∈ st.results,
        q.2.length ≤ max_chars + truncMarker.length ∧
        q.2 = (List.replicate 2005 'e').take max_chars ++ truncMarker := by
  have htr : truncateContent (List.replicate 2005 'e') =
      List.replicate 2000 'e' ++ truncMarker := by
    rw [truncateContent_of_gt _ (by simp only [List.length_replicate, max_chars]; omega)]
    rw [show max_chars = 2000 from rfl]
    rw [take_replicate_of_le 2000 2005 'e' (by omega)]
  have hcond : ¬((List.replicate 2000 'e' ++ truncMarker).length >
      (⟨("http://e.test/").data, List.replicate 2005 'e'⟩ : URLTask).title.length + 10) := by
    simp only [List.length_append, List.length_replicate, truncMarker_length]
    omega
  have hrun := scrape_multiple_single_failed (fun _ _ => .error .proxyError)
      (.error .proxyError) ⟨("http://e.test/").data, List.replicate 2005 'e'⟩
      (by decide) (by decide)
  rw [htr, if_neg hcond, if_neg hcond] at hrun
  refine ⟨_, hrun, ?_⟩
  intro q hq
  have h := C6_truncation_law (fun _ _ => .error .proxyError) (.error .proxyError)
      [⟨("http://e.test/").data, List.replicate 2005 'e'⟩]
      [⟨("http://e.test/").data, List.replicate 2005 'e'⟩] none _
      (List.Perm.refl _) hrun q hq
  obtain ⟨hb, t, htmem, hlink, heqv, himp⟩ := h
  rcases List.mem_singleton.mp htmem with rfl
  refine ⟨hb, ?_⟩
  have hsingle : scrape_single (fun _ _ => .error .proxyError)
      (⟨("http://e.test/").data, List.replicate 2005 'e'⟩ : URLTask) =
      (("http://e.test/").data, List.replicate 2005 'e') :=
    scrape_single_of_failed _ _ (by decide)
  rw [hsingle] at himp
  exact himp (by simp only [List.length_replicate, max_chars]; omega)

/-- C5: for every batch run with a callback that never raises, the
coordinator returns, and its event journal is a preamble of probe events
(all carrying `completed = 0`) followed by exactly one per-task event per
completed task whose phase is success, failed or error, carrying running
`completed`/`total` counts `1, 2, ..., n` with `total = n = len(tasks)`;
the final per-task event has `completed = total = len(tasks)` — for any
environment, including one where 100% of fetches fail. -/
theorem C5_progress_accounting (net : NetEnv)
    (probe : Except TransportError TorCheckResp)
    (tasks order : List URLTask) (f : Callback)
    (hperm : order.Perm tasks)
    (hf : ∀ l p c n, f l p c n = false) :
    ∃ st pre evs,
      scrape_multiple net probe tasks order (some f) = .ok st ∧
      st.events = pre ++ evs ∧
      (∀ ev ∈ pre, ev.completed = 0) ∧
      evs.length = tasks.length ∧
      evs.map ProgressEvent.completed = List.range' 1 tasks.length ∧
      evs.map ProgressEvent.total = List.replicate tasks.length tasks.length ∧
      (∀ ev ∈ evs, ev.phase = phaseSuccess ∨ ev.phase = phaseFailed ∨
        ev.phase = phaseError) ∧
      (tasks ≠ [] → ∃ ev, evs.getLast? = some ev ∧
        ev.completed = tasks.length ∧ ev.total = tasks.length) := by
  obtain ⟨st, pre, evs, hok, hev, hpre, hmc, hmt, hph, hcomp⟩ :=
    scrape_multiple_noraise net probe tasks order f hf
  have hlen : order.length = tasks.length := hperm.length_eq
  rw [hlen] at hmc hmt
  have hevslen : evs.length = tasks.length := by
    have hl2 := congrArg List.length hmc
    simpa using hl2
  refine ⟨st, pre, evs, hok, hev, hpre, hevslen, hmc, hmt, ?_, ?_⟩
  · intro ev hev2
    rcases hph ev hev2 with h | h
    · exact Or.inl h
    · exact Or.inr (Or.inl h)
  · intro hne
    have h0 : 0 < tasks.length := List.length_pos.mpr hne
    have hml := congrArg List.getLast? hmc
    rw [List.getLast?_map] at hml
    have hn : tasks.length = (tasks.length - 1) + 1 := by omega
    rw [hn, List.range'_1_concat] at hml
    rw [List.getLast?_append] at hml
    cases hevl : evs.getLast? with
    | none =>
        rw [hevl] at hml
        simp at hml
    | some ev =>
        rw [hevl] at hml
        have hcompleted : ev.completed = tasks.length := by
          simp at hml
          omega
        refine ⟨ev, rfl, hcompleted, ?_⟩
        have hmem : ev ∈ evs := List.mem_of_getLast?_eq_some hevl
        have htot : ev.total ∈ evs.map ProgressEvent.total :=
          List.mem_map_of_mem ProgressEvent.total hmem
        rw [hmt] at htot
        exact List.eq_of_mem_replicate htot

/-- C5 witness: a two-task batch in which both fetches raise, run with a
callback that never raises, emits exactly two per-task events with counts
1 and 2, and the final event has `completed = total = 2`. -/
theorem C5_witness :
    ∃ st pre evs,
      scrape_multiple (fun _ _ => .error .proxyError) (.error .proxyError)
          [⟨("v1").data, ("A").data⟩, ⟨("v2").data, ("B").data⟩]
          [⟨("v1").data, ("A").data⟩, ⟨("v2").data, ("B").data⟩]
          (some (fun _ _ _ _ => false)) = .ok st ∧
      st.events = pre ++ evs ∧
      (∀ ev ∈ pre, ev.completed = 0) ∧
      evs.length = 2 ∧
      evs.map ProgressEvent.completed = [1, 2] ∧
      evs.map ProgressEvent.total = [2, 2] ∧
      (∀ ev ∈ evs, ev.phase = phaseSuccess ∨ ev.phase = phaseFailed ∨
        ev.phase = phaseError) ∧
      (∃ ev, evs.getLast? = some ev ∧ ev.completed = 2 ∧ ev.total = 2) := by
  obtain ⟨st, pre, evs, hok, hev, hpre, hlen, hmc, hmt, hph, hlast⟩ :=
    C5_progress_accounting (fun _ _ => .error .proxyError) (.error .proxyError)
      [⟨("v1").data, ("A").data⟩, ⟨("v2").data, ("B").data⟩]
      [⟨("v1").data, ("A").data⟩, ⟨("v2").data, ("B").data⟩]
      (fun _ _ _ _ => false) (List.Perm.refl _) (fun _ _ _ _ => rfl)
  refine ⟨st, pre, evs, hok, hev, hpre, hlen, ?_, ?_, hph, hlast (by decide)⟩
  · rw [hmc]
    decide
  · rw [hmt]
    decide

/-- C8 counterexample: a progress callback that raises on every invocation
crashes the batch: the per-task raise is caught by the generic handler
(src line 202), but the error-phase invocation inside that handler
(src line 207) is not inside any `try`, so the second raise propagates and
`scrape_multiple` returns no batch result — refuting "that raise does not
crash the batch". -/
theorem C8_counterexample :
    scrape_multiple (fun _ _ => .error .proxyError) (.error .proxyError)
        [⟨("http://c.test/").data, ("T8").data⟩]
        [⟨("http://c.test/").data, ("T8").data⟩]
        (some (fun _ _ _ _ => true)) = .error () := rfl

/-- C8 (amended): callback faults are contained only on the success/failed
per-task events: if the callback never raises on error-phase and
checking-phase invocations, the batch runs to completion and returns a
result containing an entry for every task, even when the callback raises
on every success/failed event; a callback that also raises on the
error-phase (or preamble checking) invocation crashes the batch. -/
theorem C8_callback_fault_containment (net : NetEnv)
    (probe : Except TransportError TorCheckResp)
    (tasks order : List URLTask) (f : Callback)
    (hperm : order.Perm tasks)
    (herr : ∀ l c n, f l phaseError c n = false)
    (hchk : ∀ l c n, f l phaseChecking c n = false) :
    ∃ st, scrape_multiple net probe tasks order (some f) = .ok st ∧
      ∀ t ∈ tasks, t.link ∈ st.results.map Prod.fst := by
  obtain ⟨st, hok⟩ := scrape_multiple_isolated net probe tasks order f herr hchk
  obtain ⟨st0, hres0, hcomp0, hev0, hloop⟩ :=
    scrape_multiple_ok_elim net probe tasks order (some f) st hok
  obtain ⟨hnd, hmem, hval⟩ :=
    scrapeLoop_ok_results net (some f) tasks.length order st0 st hloop
  refine ⟨st, hok, ?_⟩
  intro t ht
  rw [hmem]
  right
  exact (hperm.map URLTask.link).mem_iff.mpr (List.mem_map_of_mem URLTask.link ht)

/-- C8 witness: a callback raising exactly on success/failed phases does not
crash a one-task batch, whose link still appears in the returned result. -/
theorem C8_witness :
    ∃ st, scrape_multiple (fun _ _ => .error .proxyError) (.error .proxyError)
        [⟨("http://d.test/").data, ("T8b").data⟩]
        [⟨("http://d.test/").data, ("T8b").data⟩]
        (some (fun _ p _ _ => (p == phaseSuccess) || (p == phaseFailed))) = .ok st ∧
      ("http://d.test/").data ∈ st.results.map Prod.fst := by
  obtain ⟨st, hok, hmem⟩ := C8_callback_fault_containment
      (fun _ _ => .error .proxyError) (.error .proxyError)
      [⟨("http://d.test/").data, ("T8b").data⟩]
      [⟨("http://d.test/").data, ("T8b").data⟩]
      (fun _ p _ _ => (p == phaseSuccess) || (p == phaseFailed))
      (List.Perm.refl _)
      (by intro l c n; rfl)
      (by intro l c n; rfl)
  exact ⟨st, hok, hmem ⟨("http://d.test/").data, ("T8b").data⟩ (by simp)⟩

/-- C9 counterexample: when the probe fails, the event carrying the
"anonymizing network unreachable" label (`"Tor NOT running!"`,
src line 168) has phase `"error"`, not `"failed"`: in this concrete run no
event pairs that label with a failed phase, refuting "emits a Failed-phase
progress event carrying an explicit unreachable label". -/
theorem C9_counterexample :
    scrape_multiple (fun _ _ => .error .proxyError) (.error .proxyError)
        [⟨("http://abc.onion/").data, ("T9").data⟩]
        [⟨("http://abc.onion/").data, ("T9").data⟩]
        (some (fun _ _ _ _ => false)) =
      .ok ⟨[(("http://abc.onion/").data, ("T9").data)],
           [⟨labelCheckingTor, phaseChecking, 0, 1⟩,
            ⟨labelTorNotRunning, phaseError, 0, 1⟩,
            ⟨("http://abc.onion/").data, phaseFailed, 1, 1⟩], 1, 0, 1⟩ ∧
    (∀ ev ∈ [(⟨labelCheckingTor, phaseChecking, 0, 1⟩ : ProgressEvent),
        ⟨labelTorNotRunning, phaseError, 0, 1⟩,
        ⟨("http://abc.onion/").data, phaseFailed, 1, 1⟩],
      ev.label = labelTorNotRunning → ev.phase = phaseError) ∧
    phaseError ≠ phaseFailed := by
  refine ⟨rfl, by decide, by decide⟩

/-- C9 (amended): when a batch contains an overlay-network (`.onion`) task
and the connectivity probe fails, the coordinator (with a callback that
never raises) emits the checking event followed by an ERROR-phase event
labelled `"Tor NOT running!"`, proceeds with the batch rather than
aborting, and every task whose link's fetches all fail with a shared title
of at most 2000 characters has its title as its final result entry. -/
theorem C9_tor_unreachable (net : NetEnv)
    (probe : Except TransportError TorCheckResp)
    (tasks order : List URLTask) (f : Callback) (st : BatchState) (t : URLTask)
    (hperm : order.Perm tasks)
    (hf : ∀ l p c n, f l p c n = false)
    (honion : hasOnion tasks = true)
    (htor : check_tor_connection probe = false)
    (hok : scrape_multiple net probe tasks order (some f) = .ok st)
    (ht : t ∈ tasks)
    (huniq : ∀ t2 ∈ tasks, t2.link = t.link → fetchFails net t2 = true ∧ t2.title = t.title)
    (hlen : t.title.length ≤ max_chars) :
    st.events.take 2 = [⟨labelCheckingTor, phaseChecking, 0, tasks.length⟩,
      ⟨labelTorNotRunning, phaseError, 0, tasks.length⟩] ∧
    (t.link, t.title) ∈ st.results := by
  simp only [scrape_multiple, honion, if_true, hf, Bool.false_eq_true, if_false, htor] at hok
  constructor
  · obtain ⟨st2, evs, hloop2, hev, hmc, hmt, hph, hcomp⟩ :=
      scrapeLoop_noraise net f tasks.length hf order
        ⟨[], [⟨labelCheckingTor, phaseChecking, 0, tasks.length⟩,
          ⟨labelTorNotRunning, phaseError, 0, tasks.length⟩], 0, 0, 0⟩
    have hst : st2 = st := Except.ok.inj (hloop2.symm.trans hok)
    dsimp only at hev
    rw [← hst, hev]
    exact List.take_left' rfl
  · obtain ⟨hnd, hmem, hval⟩ :=
      scrapeLoop_ok_results net (some f) tasks.length order _ st hok
    have hval2 : ∀ v, (t.link, v) ∈ st.results → v = t.title := by
      intro v hv
      rcases hval (t.link, v) hv with h0 | ⟨t2, ht2, hl2, hv2⟩
      · exact absurd h0 (by simp)
      · obtain ⟨hfail2, htitle2⟩ := huniq t2 (hperm.mem_iff.mp ht2) hl2
        calc v = truncateContent (scrape_single net t2).2 := hv2
          _ = truncateContent t2.title := by
                rw [scrape_single_of_failed net t2 hfail2]
          _ = t2.title := truncateContent_of_le _ (by rw [htitle2]; exact hlen)
          _ = t.title := htitle2
    have hk : t.link ∈ st.results.map Prod.fst := by
      rw [hmem]
      right
      exact (hperm.map URLTask.link).mem_iff.mpr (List.mem_map_of_mem URLTask.link ht)
    obtain ⟨q, hq, hq1⟩ := List.mem_map.mp hk
    have hqt : (t.link, q.2) ∈ st.results := by
      rw [← hq1]
      simpa using hq
    have hq2 : q.2 = t.title := hval2 q.2 hqt
    rw [← hq2]
    exact hqt

/-- C9 witness: a one-task `.onion` batch with the probe raising and every
fetch failing emits the checking/error preamble and stores the bare title. -/
theorem C9_witness :
    ∃ st : BatchState,
      scrape_multiple (fun _ _ => .error .proxyError) (.error .proxyError)
          [⟨("http://xyz.onion/").data, ("T9b").data⟩]
          [⟨("http://xyz.onion/").data, ("T9b").data⟩]
          (some (fun _ _ _ _ => false)) = .ok st ∧
      st.events.take 2 = [⟨labelCheckingTor, phaseChecking, 0, 1⟩,
        ⟨labelTorNotRunning, phaseError, 0, 1⟩] ∧
      ((("http://xyz.onion/").data, ("T9b").data) ∈ st.results) := by
  refine ⟨⟨[(("http://xyz.onion/").data, ("T9b").data)],
    [⟨labelCheckingTor, phaseChecking, 0, 1⟩,
     ⟨labelTorNotRunning, phaseError, 0, 1⟩,
     ⟨("http://xyz.onion/").data, phaseFailed, 1, 1⟩], 1, 0, 1⟩, rfl, ?_⟩
  have h := C9_tor_unreachable (fun _ _ => .error .proxyError) (.error .proxyError)
      [⟨("http://xyz.onion/").data, ("T9b").data⟩]
      [⟨("http://xyz.onion/").data, ("T9b").data⟩]
      (fun _ _ _ _ => false)
      ⟨[(("http://xyz.onion/").data, ("T9b").data)],
       [⟨labelCheckingTor, phaseChecking, 0, 1⟩,
        ⟨labelTorNotRunning, phaseError, 0, 1⟩,
        ⟨("http://xyz.onion/").data, phaseFailed, 1, 1⟩], 1, 0, 1⟩
      ⟨("http://xyz.onion/").data, ("T9b").data⟩
      (List.Perm.refl _) (fun _ _ _ _ => rfl) (by decide) rfl rfl (by simp)
      (by
        intro t2 ht2 hl
        rcases List.mem_singleton.mp ht2 with rfl
        exact ⟨by decide, rfl⟩)
      (by decide)
  exact h

theorem scrape_multiple_single_noraise (net : NetEnv)
    (probe : Except TransportError TorCheckResp) (t : URLTask) (f : Callback)
    (hno : hasOnion [t] = false)
    (hf : ∀ l p c n, f l p c n = false) :
    scrape_multiple net probe [t] [t] (some f) =
      .ok ⟨[(t.link, truncateContent (scrape_single net t).2)],
           [⟨t.link,
             (if (truncateContent (scrape_single net t).2).length > t.title.length + 10
              then phaseSuccess else phaseFailed), 1, 1⟩],
           1,
           (if (truncateContent (scrape_single net t).2).length > t.title.length + 10
            then 1 else 0),
           (if (truncateContent (scrape_single net t).2).length > t.title.length + 10
            then 0 else 1)⟩ := by
  simp only [scrape_multiple, hno, Bool.false_eq_true, if_false, scrapeLoop, processTask, hf,
    dictInsert, List.map_nil, List.not_mem_nil, List.nil_append, decide_eq_true_eq,
    scrape_single_fst, List.length_cons, List.length_nil, Nat.zero_add]

/-- C10 counterexample: a task whose HTTP-200 fetch extracts an empty text
(length 0 < 8) is reported to the progress callback with phase `"success"`
when its 1998-character title pushes the stored text over the truncation
threshold: the classification runs on the truncated stored text
(src lines 186-192), whose length 2014 exceeds `len(title) + 10 = 2008` —
refuting "every HTTP-200 fetch whose normalized extracted text is shorter
than 8 characters is reported with phase failed". -/
theorem C10_counterexample :
    ∃ st : BatchState,
      scrape_multiple (fun _ _ => .ok ⟨200, .elem ("html").data []⟩)
          (.error .proxyError)
          [⟨("http://f.test/").data, List.replicate 1998 'a'⟩]
          [⟨("http://f.test/").data, List.replicate 1998 'a'⟩]
          (some (fun _ _ _ _ => false)) = .ok st ∧
      (extractText (.elem ("html").data [])).length < 8 ∧
      st.events.map ProgressEvent.phase = [phaseSuccess] := by
  have hscr : (scrape_single (fun _ _ => .ok ⟨200, .elem ("html").data []⟩)
      (⟨("http://f.test/").data, List.replicate 1998 'a'⟩ : URLTask)).2 =
      List.replicate 1998 'a' ++ sepTitle ++ extractText (.elem ("html").data []) := by
    rw [scrape_single_of_200 (fun _ _ => .ok ⟨200, .elem ("html").data []⟩)
      ⟨("http://f.test/").data, List.replicate 1998 'a'⟩
      ⟨200, .elem ("html").data []⟩ rfl rfl]
  have hxe : extractText (Html.elem ("html").data []) = [] := rfl
  have h3 : sepTitle.length = 3 := rfl
  have hs0len : (List.replicate 1998 'a' ++ sepTitle ++
      extractText (Html.elem ("html").data [])).length = 2001 := by
    rw [hxe]
    simp only [List.length_append, List.length_replicate, List.length_nil, h3]
  have hgt : (List.replicate 1998 'a' ++ sepTitle ++
      extractText (Html.elem ("html").data [])).length > max_chars := by
    rw [hs0len]
    simp [max_chars]
  have hcond : (truncateContent (List.replicate 1998 'a' ++ sepTitle ++
      extractText (Html.elem ("html").data []))).length >
      (⟨("http://f.test/").data, List.replicate 1998 'a'⟩ : URLTask).title.length + 10 := by
    rw [truncateContent_of_gt _ hgt]
    simp only [List.length_append, List.length_take, truncMarker_length, hs0len,
      List.length_replicate, max_chars]
    omega
  have hrun := scrape_multiple_single_noraise
      (fun _ _ => .ok ⟨200, .elem ("html").data []⟩) (.error .proxyError)
      ⟨("http://f.test/").data, List.replicate 1998 'a'⟩
      (fun _ _ _ _ => false) (by decide) (fun _ _ _ _ => rfl)
  rw [hscr] at hrun
  rw [if_pos hcond] at hrun
  exact ⟨_, hrun, by decide, rfl⟩

/-- C10 (amended): the coordinator classifies a completed task on the
truncated stored text by the rule `len(stored) > len(title) + 10`; when no
truncation occurs (`len(title) + 3 + len(text) ≤ 2000`), every HTTP-200
fetch whose normalized extracted text is shorter than 8 characters is
reported to the progress callback with phase `"failed"` even though its
batch-result entry — title, separator and text — is not the bare title, so
a failed phase does not imply the result fell back to the title. -/
theorem C10_short_text_classified_failed (net : NetEnv) (f : Callback)
    (total : Nat) (st : BatchState) (t : URLTask) (r : HttpResp)
    (hr : rawFetch net t = .ok r) (h200 : r.status = 200)
    (hshort : (extractText r.body).length < 8)
    (hnotrunc : t.title.length + 3 + (extractText r.body).length ≤ max_chars)
    (hf : f t.link phaseFailed (st.completed + 1) total = false) :
    processTask net (some f) total st t =
      .ok ⟨dictInsert st.results t.link (t.title ++ sepTitle ++ extractText r.body),
           st.events ++ [⟨t.link, phaseFailed, st.completed + 1, total⟩],
           st.completed + 1, st.success_count, st.fail_count + 1⟩ ∧
    t.title ++ sepTitle ++ extractText r.body ≠ t.title := by
  have hscr := scrape_single_of_200 net t r hr h200
  have h3 : sepTitle.length = 3 := rfl
  have hclen : (t.title ++ sepTitle ++ extractText r.body).length =
      t.title.length + 3 + (extractText r.body).length := by
    simp only [List.length_append, h3]
  have htr : truncateContent (t.title ++ sepTitle ++ extractText r.body) =
      t.title ++ sepTitle ++ extractText r.body :=
    truncateContent_of_le _ (by rw [hclen]; exact hnotrunc)
  constructor
  · have hsucc2 : ¬(10 < List.length sepTitle + List.length (extractText r.body)) := by
      rw [h3]
      omega
    simp only [processTask, hscr, htr, decide_eq_true_eq]
    simp [hsucc2, hf]
  · intro heq
    have hle := congrArg List.length heq
    rw [hclen] at hle
    omega

/-- C10 witness: a 200 fetch with title `"T"` and extracted text `"Hi"`
(2 characters, shorter than 8) is reported with phase failed while its
entry `"T - Hi"` is not the bare title. -/
theorem C10_witness :
    processTask (fun _ _ => .ok ⟨200, .text ("Hi").data⟩)
        (some (fun _ _ _ _ => false)) 1
        ⟨[], [], 0, 0, 0⟩ ⟨("http://g.test/").data, ("T").data⟩ =
      .ok ⟨[(("http://g.test/").data, ("T - Hi").data)],
           [⟨("http://g.test/").data, phaseFailed, 1, 1⟩], 1, 0, 1⟩ ∧
    ("T - Hi").data ≠ ("T").data := by
  have h := C10_short_text_classified_failed
      (fun _ _ => .ok ⟨200, .text ("Hi").data⟩) (fun _ _ _ _ => false) 1
      ⟨[], [], 0, 0, 0⟩ ⟨("http://g.test/").data, ("T").data⟩
      ⟨200, .text ("Hi").data⟩ rfl rfl (by decide) (by decide) rfl
  constructor
  · rw [h.1]
    exact congrArg Except.ok (by decide)
  · decide
